import Mathlib

/-!
Verification of the WebSFTP project/service lifecycle subsystem.

The JavaScript modules are shallowly embedded: the pure string builders of
`src/modules/scripts.js` become Lean functions on `String`; the stateful
modules (`users.js`, the file routes of `web/server.js`, the file writes of
`generateScripts`) become functions that take the stored state explicitly and
return an `Except` value, where `Except.error` models a thrown exception
occurring before the corresponding write. JavaScript template literals are
rendered as explicit `++` concatenations of the same text, with apostrophes
written as the escape x27 and braces as x7b / x7d.
-/

set_option maxRecDepth 100000

namespace WebSFTP

/-! ## Generic character-list helpers (spec-side analysis functions) -/

/-- Boolean prefix test on character lists. -/
def isPrefixOfB : List Char → List Char → Bool
  | [], _ => true
  | _ :: _, [] => false
  | a :: as, b :: bs => a == b && isPrefixOfB as bs

/-- Boolean substring test on character lists. -/
def containsB (pat : List Char) : List Char → Bool
  | [] => isPrefixOfB pat []
  | c :: rest => isPrefixOfB pat (c :: rest) || containsB pat rest

/-- Substring test on strings: does `s` contain `pat`? -/
def containsSub (s pat : String) : Bool := containsB pat.data s.data

/-- Index of the first occurrence of `pat` in a character list. -/
def firstOccIdx (pat : List Char) : List Char → Option Nat
  | [] => if isPrefixOfB pat [] then some 0 else none
  | c :: rest =>
    if isPrefixOfB pat (c :: rest) then some 0
    else (firstOccIdx pat rest).map (· + 1)

/-- Index of the first occurrence of `pat` in string `s`. -/
def firstOcc (s pat : String) : Option Nat := firstOccIdx pat.data s.data

/-- Split a character list at every occurrence of the separator `sep`. -/
def splitOnCh (sep : Char) : List Char → List (List Char)
  | [] => [[]]
  | c :: rest =>
    if c = sep then [] :: splitOnCh sep rest
    else
      match splitOnCh sep rest with
      | [] => [[c]]
      | l :: ls => (c :: l) :: ls

/-- Split a character list at every newline character. -/
def splitNl : List Char → List (List Char) := splitOnCh '\n'

/-- The exact text of the supervisor persist-state line. -/
def saveTarget : List Char := ("pm2 save").data

/-- Number of lines of `s` that consist exactly of `pm2 save`. -/
def saveCountS (s : String) : Nat :=
  List.countP (fun l => l == saveTarget) (splitNl s.data)

/-- The string ends with a newline character. -/
def EndsNl (s : String) : Prop := s.data.getLast? = some '\n'

instance (s : String) : Decidable (EndsNl s) := by
  unfold EndsNl; infer_instance

/-- Concatenation of a list of strings (used to describe the fold of the
per-service loop). -/
def concatStrs : List String → String
  | [] => ""
  | s :: rest => s ++ concatStrs rest

/-- The bar-separated join used by the status script filter
(`Array.prototype.join` with separator bar). -/
def joinBar : List String → String
  | [] => ""
  | [s] => s
  | s :: rest => s ++ "|" ++ joinBar rest

/-! ## Data model: `Service` as stored in the project configuration -/

/-- A service record of a project configuration (`name`, `directory`,
`command`, `description`, `setupCommands`), as used by `scripts.js`. -/
structure Service where
  name : String
  directory : String
  command : String
  description : String := ""
  setupCommands : List String := []
deriving DecidableEq

/-! ## `generateStartScript` (src/modules/scripts.js) -/

/-- The process handle used with the supervisor: the JS local
`const pm2Name = projectName-serviceName`. -/
def pm2Handle (projectName : String) (service : Service) : String :=
  projectName ++ "-" ++ service.name

/-- First fixed part of the `start.sh` header template. -/
def startHdr1 : String :=
  "#!/bin/bash\n# ============================================\n# Script de démarrage des services\n"

/-- Middle fixed part of the `start.sh` header template. -/
def startHdr2 : String :=
  "# Généré automatiquement - Ne pas modifier\n# ============================================\n\nset -e\n\necho \"==========================================\"\n"

/-- Last fixed part of the `start.sh` header template. -/
def startHdr3 : String :=
  "echo \"==========================================\"\necho \"\"\n\n# Vérifier si PM2 est installé\nif ! command -v pm2 &> /dev/null; then\n    echo \"ERREUR: PM2 n\x27est pas installé\"\n    echo \"Installez-le avec: npm install -g pm2\"\n    exit 1\nfi\n\n"

/-- Header template of `start.sh` (the initial template literal of
`generateStartScript`, with `projectName` interpolated twice; written as a
concatenation grouped at line boundaries, same text). -/
def startHeader (projectName : String) : String :=
  startHdr1 ++
  (("# Projet: " ++ projectName ++ "\n") ++
  (startHdr2 ++
  (("echo \"  Démarrage des services: " ++ projectName ++ "\"" ++ "\n") ++
  startHdr3)))

/-- The no-service message line shared by all five generators. -/
def noServiceMsg : String := "echo \"Aucun service configuré pour ce projet\"\n"

/-- The build-keyword advisory emitted when the command looks like a one-shot
build (condition `service.command` truthy and containing `build` or `tsc`). -/
def startWarn (service : Service) : String :=
  if service.command != "" && (containsSub service.command "build" || containsSub service.command "tsc") then
    ("echo \"⚠ ATTENTION: La commande \x27" ++ service.command ++ "\x27 semble être un build\"" ++ "\n") ++
    "echo \"⚠ PM2 va redémarrer en boucle car le build se termine\"\necho \"⚠ Utilisez \x27npm start\x27 ou \x27npx vite preview\x27 pour un serveur\"\necho \"\"\n"
  else ""

/-- The supervisor start invocation line of `start.sh` for one service:
start under the handle, falling back to restart of the same handle. -/
def startInvocation (projectName : String) (service : Service) : String :=
  ("pm2 start \"" ++ service.command ++ "\" --name \"" ++ pm2Handle projectName service
   ++ "\" --cwd \"" ++ service.directory ++ "\" 2>/dev/null || pm2 restart \""
   ++ pm2Handle projectName service ++ "\"") ++ "\n"

/-- The per-service block appended by the loop body of `generateStartScript`
(one group per JS append statement). -/
def startServiceBlock (projectName : String) (service : Service) : String :=
  ("# Service: " ++ service.name ++ "\n") ++
  (("echo \"Démarrage de " ++ service.name ++ "...\"" ++ "\n") ++
  (("cd \"" ++ service.directory ++ "\"" ++ "\n") ++
  (startWarn service ++
  (startInvocation projectName service ++
  (("echo \"  ✔ " ++ service.name ++ " démarré\"" ++ "\n") ++
  "echo \"\"\n\n")))))

/-- The persist-state chunk appended once after all per-service blocks. -/
def startSaveChunk : String := "# Sauvegarder la configuration PM2\n" ++ "pm2 save\n\n"

/-- The closing chunk of the non-empty `start.sh`. -/
def startFooter : String :=
  "echo \"==========================================\"\necho \"  Tous les services ont été démarrés\"\necho \"==========================================\"\necho \"\"\necho \"Utilisez \x27pm2 status\x27 pour voir l\x27état des services\"\necho \"Utilisez \x27pm2 logs\x27 pour voir les logs\"\n"

/-- `generateStartScript(projectName, services)` of scripts.js. -/
def generateStartScript (projectName : String) (services : List Service) : String :=
  let script := startHeader projectName
  if services.length == 0 then
    script ++ noServiceMsg ++ "exit 0\n"
  else
    (services.foldl (fun acc s => acc ++ startServiceBlock projectName s) script)
    ++ startSaveChunk ++ startFooter

/-! ## `generateStopScript` -/

/-- Header template of `stop.sh`. -/
def stopHeader (projectName : String) : String :=
  "#!/bin/bash\n# ============================================\n# Script d\x27arrêt des services\n# Projet: "
  ++ projectName
  ++ "\n# Généré automatiquement - Ne pas modifier\n# ============================================\n\nset -e\n\necho \"==========================================\"\necho \"  Arrêt des services: "
  ++ projectName
  ++ "\"\necho \"==========================================\"\necho \"\"\n\n# Vérifier si PM2 est installé\nif ! command -v pm2 &> /dev/null; then\n    echo \"ERREUR: PM2 n\x27est pas installé\"\n    exit 1\nfi\n\n"

/-- The per-service block of `generateStopScript`. -/
def stopServiceBlock (projectName : String) (service : Service) : String :=
  "# Service: " ++ service.name ++ "\n"
  ++ "echo \"Arrêt de " ++ service.name ++ "...\"\n"
  ++ "pm2 stop \"" ++ (projectName ++ "-" ++ service.name) ++ "\" 2>/dev/null || echo \"  (non actif)\"\n"
  ++ "echo \"  ✔ " ++ service.name ++ " arrêté\"\n"
  ++ "echo \"\"\n\n"

/-- The closing chunk of the non-empty `stop.sh`. -/
def stopFooter : String :=
  "echo \"==========================================\"\necho \"  Tous les services ont été arrêtés\"\necho \"==========================================\"\n"

/-- `generateStopScript(projectName, services)` of scripts.js. -/
def generateStopScript (projectName : String) (services : List Service) : String :=
  let script := stopHeader projectName
  if services.length == 0 then
    script ++ noServiceMsg ++ "exit 0\n"
  else
    (services.foldl (fun acc s => acc ++ stopServiceBlock projectName s) script)
    ++ "# Sauvegarder la configuration PM2\n" ++ "pm2 save\n\n" ++ stopFooter

/-! ## `generateRestartScript` -/

/-- Header template of `restart.sh`. -/
def restartHeader (projectName : String) : String :=
  "#!/bin/bash\n# ============================================\n# Script de redémarrage des services\n# Projet: "
  ++ projectName
  ++ "\n# Généré automatiquement - Ne pas modifier\n# ============================================\n\nset -e\n\necho \"==========================================\"\necho \"  Redémarrage des services: "
  ++ projectName
  ++ "\"\necho \"==========================================\"\necho \"\"\n\n# Vérifier si PM2 est installé\nif ! command -v pm2 &> /dev/null; then\n    echo \"ERREUR: PM2 n\x27est pas installé\"\n    exit 1\nfi\n\n"

/-- The per-service block of `generateRestartScript`. -/
def restartServiceBlock (projectName : String) (service : Service) : String :=
  "# Service: " ++ service.name ++ "\n"
  ++ "echo \"Redémarrage de " ++ service.name ++ "...\"\n"
  ++ "pm2 restart \"" ++ (projectName ++ "-" ++ service.name) ++ "\" 2>/dev/null || echo \"  (démarrage initial...)\"\n"
  ++ "echo \"  ✔ " ++ service.name ++ " redémarré\"\n"
  ++ "echo \"\"\n\n"

/-- The closing chunk of the non-empty `restart.sh`. -/
def restartFooter : String :=
  "echo \"==========================================\"\necho \"  Tous les services ont été redémarrés\"\necho \"==========================================\"\n"

/-- `generateRestartScript(projectName, services)` of scripts.js. -/
def generateRestartScript (projectName : String) (services : List Service) : String :=
  let script := restartHeader projectName
  if services.length == 0 then
    script ++ noServiceMsg ++ "exit 0\n"
  else
    (services.foldl (fun acc s => acc ++ restartServiceBlock projectName s) script)
    ++ "# Sauvegarder la configuration PM2\n" ++ "pm2 save\n\n" ++ restartFooter

/-! ## `generateDeployScript` -/

/-- Header template of `deploy.sh`, including the `fix_permissions` shell
function definition. -/
def deployHeader (projectName : String) : String :=
  "#!/bin/bash\n# ============================================\n# Script de déploiement\n# Projet: "
  ++ projectName
  ++ "\n# Généré automatiquement - Ne pas modifier\n# ============================================\n\nset -e\n\necho \"==========================================\"\necho \"  Déploiement: "
  ++ projectName
  ++ "\"\necho \"==========================================\"\necho \"\"\n\n# Fonction pour corriger les permissions\nfix_permissions() \x7b\n    local dir=\"$1\"\n    local user=\"$2\"\n    \n    echo \"Correction des permissions pour: $dir\"\n    \n    # Vérifier si on a les droits sudo\n    if sudo -n true 2>/dev/null; then\n        echo \"  → Changement du propriétaire...\"\n        sudo chown -R \"$user:$user\" \"$dir\"\n        echo \"  → Ajustement des permissions...\"\n        sudo chmod -R u+rwX,g+rX,o+rX \"$dir\"\n        echo \"  ✔ Permissions corrigées\"\n    else\n        echo \"  ⚠ Sudo requis pour corriger les permissions\"\n        echo \"  Exécutez: sudo chown -R $user:$user $dir\"\n        exit 1\n    fi\n\x7d\n\n"

/-- The per-service block of `generateDeployScript`. -/
def deployServiceBlock (service : Service) : String :=
  "# Service: " ++ service.name ++ "\n"
  ++ "echo \"Déploiement de " ++ service.name ++ "...\"\n"
  ++ "cd \"" ++ service.directory ++ "\"\n\n"
  ++ "# Vérifier et corriger les permissions si nécessaire\n"
  ++ "if [ ! -w \"" ++ service.directory ++ "\" ]; then\n"
  ++ "    echo \"  ⚠ Permissions insuffisantes\"\n"
  ++ "    fix_permissions \"" ++ service.directory ++ "\" \"$CURRENT_USER\"\n"
  ++ "fi\n\n"
  ++ "# Installer les dépendances\n"
  ++ "if [ -f \"package.json\" ]; then\n"
  ++ "    echo \"  → Installation des dépendances npm...\"\n"
  ++ "    npm install || \x7b\n"
  ++ "        echo \"  ✗ Erreur lors de npm install\"\n"
  ++ "        echo \"  Tentative de correction des permissions...\"\n"
  ++ "        fix_permissions \"" ++ service.directory ++ "\" \"$CURRENT_USER\"\n"
  ++ "        npm install || exit 1\n"
  ++ "    \x7d\n"
  ++ "    echo \"  ✔ Dépendances installées\"\n"
  ++ "fi\n\n"
  ++ "# Build si nécessaire\n"
  ++ "if grep -q \x27\"build\"\x27 package.json 2>/dev/null; then\n"
  ++ "    echo \"  → Build de l\x27application...\"\n"
  ++ "    npm run build 2>/dev/null || echo \"  (pas de build configuré)\"\n"
  ++ "fi\n\n"
  ++ "echo \"  ✔ " ++ service.name ++ " déployé\"\n"
  ++ "echo \"\"\n\n"

/-- The closing chunk of the non-empty `deploy.sh`. -/
def deployFooter : String :=
  "echo \"==========================================\"\n"
  ++ "echo \"  Déploiement terminé\"\n"
  ++ "echo \"==========================================\"\n"
  ++ "echo \"\"\n"
  ++ "echo \"Utilisez \x27./scripts/start.sh\x27 pour démarrer les services\"\n"

/-- `generateDeployScript(projectName, services)` of scripts.js. -/
def generateDeployScript (projectName : String) (services : List Service) : String :=
  let script := deployHeader projectName
  if services.length == 0 then
    script ++ noServiceMsg
  else
    (services.foldl (fun acc s => acc ++ deployServiceBlock s)
      (script ++ "# Déploiement de chaque service\n" ++ "CURRENT_USER=$(whoami)\n\n"))
    ++ deployFooter

/-! ## `generateStatusScript` -/

/-- Header template of `status.sh` (note: no `set -e` in this one). -/
def statusHeader (projectName : String) : String :=
  "#!/bin/bash\n# ============================================\n# Script de statut des services\n# Projet: "
  ++ projectName
  ++ "\n# Généré automatiquement - Ne pas modifier\n# ============================================\n\necho \"==========================================\"\necho \"  Statut des services: "
  ++ projectName
  ++ "\"\necho \"==========================================\"\necho \"\"\n\n# Vérifier si PM2 est installé\nif ! command -v pm2 &> /dev/null; then\n    echo \"ERREUR: PM2 n\x27est pas installé\"\n    exit 1\nfi\n\n"

/-- The list of alternatives of the status grep filter: one process handle
per service, plus the header word `Name` and the box-drawing separator. -/
def statusAlternatives (projectName : String) (services : List Service) : List String :=
  services.map (fun s => projectName ++ "-" ++ s.name) ++ ["Name", "─"]

/-- `generateStatusScript(projectName, services)` of scripts.js. -/
def generateStatusScript (projectName : String) (services : List Service) : String :=
  let script := statusHeader projectName
  if services.length == 0 then
    script ++ noServiceMsg
  else
    script ++ "# Afficher le statut de tous les services du projet\n"
    ++ ("pm2 list | grep -E \"("
        ++ joinBar (services.map (fun s => projectName ++ "-" ++ s.name))
        ++ "|Name|─)\" || echo \"Aucun service actif\"\n")

/-- Model of the status filter: `grep -E` with an alternation of the literal
alternatives matches a line exactly when the line contains one of the
alternatives as a substring (the handles here contain no regex
metacharacters). -/
def statusFilterMatches (projectName : String) (services : List Service) (line : String) : Bool :=
  (statusAlternatives projectName services).any (fun alt => containsSub line alt)

/-! ## `users.js`: stored users and the mutating operations

The JSON users file is modelled as an explicit `List User`; an operation
returns `Except.ok newList` when the JS function reaches `writeUsers` with
that list, and `Except.error msg` when it throws first (so an error value
means the stored file was not touched). `crypto.randomUUID`, the creation
timestamp and the sha256 password hash are nondeterministic or external and
are passed in as explicit arguments. -/

/-- A record of `users.json`. -/
structure User where
  id : String
  username : String
  firstName : String := ""
  lastName : String := ""
  password : String
  role : String
  mustChangePassword : Bool := false
  createdAt : String := ""
  projects : List String := []
deriving DecidableEq

/-- `createUser(username, password, role, mustChangePassword, firstName,
lastName)` of users.js: duplicate-name check, then role check, then password
length check, each throwing before any write; on success the new user is
appended and the file written. -/
def createUser (hashPassword : String → String) (newId createdAt : String)
    (users : List User) (username password role : String)
    (mustChangePassword : Bool) (firstName lastName : String) :
    Except String (List User) :=
  if (users.find? (fun u => u.username == username)).isSome then
    Except.error "Un utilisateur avec ce nom existe déjà"
  else if !(["admin", "user"].contains role) then
    Except.error "Rôle invalide. Doit être \"admin\" ou \"user\""
  else if password.length < 6 then
    Except.error "Le mot de passe doit contenir au moins 6 caractères"
  else
    let newUser : User :=
      { id := newId
        username := username
        firstName := firstName
        lastName := lastName
        password := hashPassword password
        role := role
        mustChangePassword := mustChangePassword
        createdAt := createdAt
        projects := [] }
    Except.ok (users ++ [newUser])

/-- `deleteUser(userId)` of users.js: the guard against deleting the last
administrator fires only when the target user is named `admin` with role
`admin`; otherwise the entry found by `findIndex` is spliced out. -/
def deleteUser (users : List User) (userId : String) : Except String (List User) :=
  match users.find? (fun u => u.id == userId) with
  | none => Except.error "Utilisateur non trouvé"
  | some user =>
    if user.username == "admin" && user.role == "admin"
       && ((users.filter (fun u => u.role == "admin")).length == 1) then
      Except.error "Impossible de supprimer le dernier administrateur"
    else
      Except.ok (users.eraseP (fun u => u.id == userId))

/-- Update the first element satisfying `p` (the JS functions mutate the
object returned by `Array.prototype.find`). -/
def updateFirst (p : α → Bool) (f : α → α) : List α → List α
  | [] => []
  | a :: rest => if p a then f a :: rest else a :: updateFirst p f rest

/-- `changeUserRole(userId, newRole)` of users.js: role validity check, user
lookup, then a guard refusing to demote the last administrator; on success
the found user record gets the new role and the file is written. -/
def changeUserRole (users : List User) (userId newRole : String) :
    Except String (List User) :=
  if !(["admin", "user"].contains newRole) then
    Except.error "Rôle invalide. Doit être \"admin\" ou \"user\""
  else
    match users.find? (fun u => u.id == userId) with
    | none => Except.error "Utilisateur non trouvé"
    | some user =>
      if user.role == "admin" && newRole == "user"
         && ((users.filter (fun u => u.role == "admin")).length == 1) then
        Except.error "Impossible de rétrograder le dernier administrateur"
      else
        Except.ok (updateFirst (fun u => u.id == userId)
          (fun u => { u with role := newRole }) users)

/-- The stored user list after an operation: an `ok` value was written,
an error left the previous list in place. -/
def usersAfter (res : Except String (List User)) (old : List User) : List User :=
  match res with
  | Except.ok l => l
  | Except.error _ => old

/-- Number of stored users whose role is `admin`. -/
def adminCount (users : List User) : Nat :=
  (users.filter (fun u => u.role == "admin")).length

/-! ## `fileManager.js`: path resolution and the containment guard

Node `path.join(a, b)` is modelled as: concatenate with a slash, split into
slash-separated segments, then normalize by dropping empty and dot segments
and letting a dot-dot segment pop the previous one (for the absolute paths
used here, excess dot-dot at the root is dropped). A trailing separator of
the result is normalized away, which is irrelevant to the prefix guard and
containment statements below. The guard of every fileManager operation is a
plain string `startsWith` of the joined path against the project path. -/

/-- Split a character list at every slash. -/
def splitSeg : List Char → List (List Char) := splitOnCh '/'

/-- Normalization stack: empty and dot segments are dropped, dot-dot pops. -/
def normStack (stack : List (List Char)) : List (List Char) → List (List Char)
  | [] => stack
  | seg :: rest =>
    if seg = [] ∨ seg = ['.'] then normStack stack rest
    else if seg = ['.', '.'] then normStack stack.dropLast rest
    else normStack (stack ++ [seg]) rest

/-- Render an absolute path from its segments. -/
def renderAbs (segs : List (List Char)) : List Char :=
  match segs with
  | [] => ['/']
  | _ => segs.foldl (fun acc seg => acc ++ '/' :: seg) []

/-- Model of Node `path.join(a, b)` for an absolute `a`. -/
def pathJoin (a b : String) : String :=
  String.mk (renderAbs (normStack [] (splitSeg (a.data ++ '/' :: b.data))))

/-- JS `String.prototype.startsWith`: does `s` start with `pre`? -/
def strStartsWith (s pre : String) : Bool := isPrefixOfB pre.data s.data

/-- The common prologue of the single-path fileManager operations
(`listFiles`, `deleteItem`, `readFile`, `writeFile`, `getFileInfo`):
join the project path with the relative path, then refuse unless the full
path starts with the project path; the `ok` value is the full path on which
the subsequent filesystem side effects operate. -/
def fileManagerResolve (projectPath relativePath : String) : Except String String :=
  let fullPath := pathJoin projectPath relativePath
  if strStartsWith fullPath projectPath then Except.ok fullPath
  else Except.error "Accès refusé : chemin invalide"

/-- `deleteItem(projectPath, relativePath)` guard and target of
fileManager.js: the returned path is the one removed (`rm`/`unlink`). -/
def deleteItem (projectPath relativePath : String) : Except String String :=
  fileManagerResolve projectPath relativePath

/-- `listFiles(projectPath, relativePath)` guard and target. -/
def listFiles (projectPath relativePath : String) : Except String String :=
  fileManagerResolve projectPath relativePath

/-- `readFile(projectPath, relativePath)` guard and target. -/
def readFile (projectPath relativePath : String) : Except String String :=
  fileManagerResolve projectPath relativePath

/-- `writeFile(projectPath, relativePath)` guard and target. -/
def writeFile (projectPath relativePath : String) : Except String String :=
  fileManagerResolve projectPath relativePath

/-- `getFileInfo(projectPath, relativePath)` guard and target. -/
def getFileInfo (projectPath relativePath : String) : Except String String :=
  fileManagerResolve projectPath relativePath

/-- Is `s` a normalized absolute path: a slash followed by at least one
segment, no segment empty or dot or dot-dot? -/
def isNormalAbsB (p : String) : Bool :=
  match p.data with
  | c :: rest =>
    c == '/' && rest != []
      && (splitSeg rest).all (fun seg => seg ≠ [] && seg ≠ ['.'] && seg ≠ ['.', '.'])
  | [] => false

/-- Does the relative path avoid dot-dot segments entirely? -/
def noDotDotB (r : String) : Bool :=
  (splitSeg r.data).all (fun seg => seg ≠ ['.', '.'])

/-- Is `t` inside the directory `p`: equal to it or an extension below it? -/
def isInsideB (p t : String) : Bool :=
  t == p || strStartsWith t (p ++ "/")

/-! ## The bulk file-delete route of `web/server.js`

`DELETE /api/projects/:name/files` builds `fullTargetPath`, then walks the
project services and, for each service with a truthy `directory` such that
`service.directory.startsWith(fullTargetPath)`, stops and deletes the
supervised process under `service.pm2Name` or the default
projectName-serviceName handle, before running the recursive removal. -/

/-- A service entry as read by the delete route (`pm2Name` may be absent or
empty, both falsy in JS, modelled as the empty string). -/
structure DelService where
  name : String
  directory : String
  pm2Name : String := ""
deriving DecidableEq

/-- The handle used for the stop and delete supervisor commands. -/
def delHandle (projectName : String) (s : DelService) : String :=
  if s.pm2Name != "" then s.pm2Name else projectName ++ "-" ++ s.name

/-- The handles stopped (and deleted) by the route loop, in order. -/
def stoppedHandles (projectName fullTargetPath : String) :
    List DelService → List String
  | [] => []
  | s :: rest =>
    if s.directory != "" && strStartsWith s.directory fullTargetPath then
      delHandle projectName s :: stoppedHandles projectName fullTargetPath rest
    else
      stoppedHandles projectName fullTargetPath rest

/-- The claim reading of C6: the stopped services would be those whose
directory is a string prefix of the deleted path. -/
def claimStoppedHandles (projectName fullTargetPath : String)
    (services : List DelService) : List String :=
  (services.filter (fun s => strStartsWith fullTargetPath s.directory)).map
    (delHandle projectName)

/-! ## `generateScripts` as a sequence of five file writes

`generateScripts` writes `start.sh`, `stop.sh`, `restart.sh`, `status.sh`,
`deploy.sh` in that order, each with `writeFileSync` then `chmodSync`. The
scripts directory contents are modelled as five string slots; a possible
write failure is injected as the index (0 to 4) of the write that throws,
`none` meaning all writes succeed. The Bool result is false when the
invocation failed partway. -/

/-- Contents of the five script files of a project. -/
structure ScriptFiles where
  startSh : String
  stopSh : String
  restartSh : String
  statusSh : String
  deploySh : String
deriving DecidableEq

/-- `generateScripts(projectName)`: the five sequential writes, with the
project services passed explicitly (loading of the stored configuration is
the caller side). -/
def generateScripts (projectName : String) (services : List Service)
    (old : ScriptFiles) (failAt : Option Nat) : ScriptFiles × Bool :=
  if failAt == some 0 then (old, false) else
  let s1 := { old with startSh := generateStartScript projectName services }
  if failAt == some 1 then (s1, false) else
  let s2 := { s1 with stopSh := generateStopScript projectName services }
  if failAt == some 2 then (s2, false) else
  let s3 := { s2 with restartSh := generateRestartScript projectName services }
  if failAt == some 3 then (s3, false) else
  let s4 := { s3 with statusSh := generateStatusScript projectName services }
  if failAt == some 4 then (s4, false) else
  let s5 := { s4 with deploySh := generateDeployScript projectName services }
  (s5, true)

/-! ## `regenerateAllScripts` -/

/-- The logged outcome for one project of the bulk loop. -/
inductive ItemOutcome where
  | ok : ItemOutcome
  | failed (msg : String) : ItemOutcome
deriving DecidableEq

/-- The outcome recorded for one generation result. -/
def itemOutcome : Except String Unit → ItemOutcome
  | Except.ok _ => ItemOutcome.ok
  | Except.error e => ItemOutcome.failed e

/-- `regenerateAllScripts()` of scripts.js: iterate over all stored
projects, calling `generateScripts` for each inside try/catch — a failure is
logged (recorded here as a `failed` outcome) and the loop continues with the
remaining projects. The possibly-failing `generateScripts` side effects are
abstracted as the function `gen`. -/
def regenerateAllScripts (gen : String → Except String Unit) :
    List String → List (String × ItemOutcome)
  | [] => []
  | name :: rest =>
    (match gen name with
     | Except.ok _ => (name, ItemOutcome.ok)
     | Except.error e => (name, ItemOutcome.failed e))
    :: regenerateAllScripts gen rest

/-- Modelled from the spec: `removeService` of the missing
`src/modules/services.js` deletes the config entry of the named service
from the stored service list (spec 4.4: stops the process best-effort,
then deletes the config entry and regenerates scripts). -/
def removeService (services : List Service) (name : String) : List Service :=
  services.filter (fun s => s.name != name)

/-- Well-formedness of the rendered fields: no newline inside the project
name or any service name, directory or command. -/
def fieldsNoNl (projectName : String) (services : List Service) : Prop :=
  '\n' ∉ projectName.data ∧
  ∀ s ∈ services, '\n' ∉ s.name.data ∧ '\n' ∉ s.directory.data ∧ '\n' ∉ s.command.data

instance (p : String) (l : List Service) : Decidable (fieldsNoNl p l) := by
  unfold fieldsNoNl; infer_instance

/-! ## The shop example of the specification -/

/-- The two services of the `shop` example scenario. -/
def shopServices : List Service :=
  [{ name := "api", directory := "api", command := "serve" },
   { name := "web", directory := "web", command := "serve-web" }]

/-- Fidelity check: the generated `start.sh` header for the shop example. -/
theorem genText_startHeader_shop :
    startHeader "shop" =
    "#!/bin/bash\n# ============================================\n# Script de démarrage des services\n# Projet: shop\n# Généré automatiquement - Ne pas modifier\n# ============================================\n\nset -e\n\necho \"==========================================\"\necho \"  Démarrage des services: shop\"\necho \"==========================================\"\necho \"\"\n\n# Vérifier si PM2 est installé\nif ! command -v pm2 &> /dev/null; then\n    echo \"ERREUR: PM2 n\x27est pas installé\"\n    echo \"Installez-le avec: npm install -g pm2\"\n    exit 1\nfi\n\n" := by
  decide

/-- Fidelity check: the `start.sh` block for the shop api service. -/
theorem genText_startBlock_api :
    startServiceBlock "shop" { name := "api", directory := "api", command := "serve" } =
    "# Service: api\necho \"Démarrage de api...\"\ncd \"api\"\npm2 start \"serve\" --name \"shop-api\" --cwd \"api\" 2>/dev/null || pm2 restart \"shop-api\"\necho \"  ✔ api démarré\"\necho \"\"\n\n" := by
  decide

/-- Fidelity check: the `start.sh` block for the shop web service. -/
theorem genText_startBlock_web :
    startServiceBlock "shop" { name := "web", directory := "web", command := "serve-web" } =
    "# Service: web\necho \"Démarrage de web...\"\ncd \"web\"\npm2 start \"serve-web\" --name \"shop-web\" --cwd \"web\" 2>/dev/null || pm2 restart \"shop-web\"\necho \"  ✔ web démarré\"\necho \"\"\n\n" := by
  decide

/-- Fidelity check: the full generated `status.sh` text for the shop example. -/
theorem genText_status_shop :
    generateStatusScript "shop" shopServices =
    "#!/bin/bash\n# ============================================\n# Script de statut des services\n# Projet: shop\n# Généré automatiquement - Ne pas modifier\n# ============================================\n\necho \"==========================================\"\necho \"  Statut des services: shop\"\necho \"==========================================\"\necho \"\"\n\n# Vérifier si PM2 est installé\nif ! command -v pm2 &> /dev/null; then\n    echo \"ERREUR: PM2 n\x27est pas installé\"\n    exit 1\nfi\n\n# Afficher le statut de tous les services du projet\npm2 list | grep -E \"(shop-api|shop-web|Name|─)\" || echo \"Aucun service actif\"\n" := by
  decide

/-! ## String and list infrastructure lemmas -/

theorem str_data_append (a b : String) : (a ++ b).data = a.data ++ b.data := by
  cases a; cases b; rfl

theorem str_assoc (a b c : String) : a ++ b ++ c = a ++ (b ++ c) := by
  cases a with | mk x => cases b with | mk y => cases c with | mk z =>
  exact congrArg String.mk (List.append_assoc x y z)

theorem str_append_empty (a : String) : a ++ "" = a := by
  cases a with | mk x => exact congrArg String.mk (List.append_nil x)

theorem str_empty_append (a : String) : "" ++ a = a := by
  cases a with | mk x => rfl

theorem splitOnCh_ne_nil (sep : Char) : ∀ l : List Char, splitOnCh sep l ≠ []
  | [] => by simp [splitOnCh]
  | c :: rest => by
    unfold splitOnCh
    by_cases hc : c = sep
    · simp [hc]
    · simp only [if_neg hc]
      cases h : splitOnCh sep rest <;> simp

theorem splitOnCh_cons_sep (sep : Char) (rest : List Char) :
    splitOnCh sep (sep :: rest) = [] :: splitOnCh sep rest := by
  conv_lhs => unfold splitOnCh
  simp

theorem splitOnCh_cons_ne (sep c : Char) (rest : List Char) (h : c ≠ sep)
    (l : List Char) (ls : List (List Char))
    (hr : splitOnCh sep rest = l :: ls) :
    splitOnCh sep (c :: rest) = (c :: l) :: ls := by
  unfold splitOnCh
  rw [if_neg h, hr]

theorem splitOnCh_append (sep : Char) (a b : List Char) :
    splitOnCh sep (a ++ sep :: b) = splitOnCh sep a ++ splitOnCh sep b := by
  induction a with
  | nil => simp [splitOnCh_cons_sep, splitOnCh]
  | cons c rest ih =>
    by_cases hc : c = sep
    · subst hc
      rw [List.cons_append, splitOnCh_cons_sep, ih, splitOnCh_cons_sep]
      rfl
    · cases h : splitOnCh sep rest with
      | nil => exact absurd h (splitOnCh_ne_nil sep rest)
      | cons l ls =>
        have h2 : splitOnCh sep (rest ++ sep :: b) = l :: (ls ++ splitOnCh sep b) := by
          rw [ih, h]
          rfl
        rw [List.cons_append,
          splitOnCh_cons_ne sep c _ hc _ _ h2,
          splitOnCh_cons_ne sep c _ hc _ _ h]
        rfl

theorem splitOnCh_no_sep (sep : Char) (l : List Char) (h : sep ∉ l) :
    splitOnCh sep l = [l] := by
  induction l with
  | nil => rfl
  | cons c rest ih =>
    have hc : c ≠ sep := fun e => h (e ▸ List.mem_cons_self c rest)
    have hr : sep ∉ rest := fun m => h (List.mem_cons_of_mem _ m)
    unfold splitOnCh
    rw [if_neg hc, ih hr]

theorem isPrefixOfB_append_self : ∀ x y : List Char, isPrefixOfB x (x ++ y) = true
  | [], _ => rfl
  | a :: as, y => by
    simp only [List.cons_append, isPrefixOfB, beq_self_eq_true, Bool.true_and]
    exact isPrefixOfB_append_self as y

theorem isPrefixOfB_refl (x : List Char) : isPrefixOfB x x = true := by
  have := isPrefixOfB_append_self x []
  rwa [List.append_nil] at this

theorem isPrefixOfB_false_mono (a b t : List Char)
    (h : isPrefixOfB a t = false) : isPrefixOfB (a ++ b) t = false := by
  induction a generalizing t with
  | nil => simp [isPrefixOfB] at h
  | cons x xs ih =>
    cases t with
    | nil => rfl
    | cons y ys =>
      simp only [List.cons_append, isPrefixOfB] at h ⊢
      cases hxy : (x == y)
      · simp [hxy]
      · rw [hxy] at h
        simp only [Bool.true_and] at h ⊢
        exact ih ys h

theorem beq_false_of_prefix_false (pre rest t : List Char)
    (h : isPrefixOfB pre t = false) : ((pre ++ rest) == t) = false := by
  cases hb : ((pre ++ rest) == t)
  · rfl
  · exfalso
    have he : pre ++ rest = t := beq_iff_eq.mp hb
    rw [← he, isPrefixOfB_append_self] at h
    cases h

theorem isPrefixOfB_extend (pat s t : List Char)
    (h : isPrefixOfB pat s = true) : isPrefixOfB pat (s ++ t) = true := by
  induction pat generalizing s with
  | nil => rfl
  | cons p ps ih =>
    cases s with
    | nil => simp [isPrefixOfB] at h
    | cons c cs =>
      simp only [isPrefixOfB, Bool.and_eq_true] at h
      simp only [List.cons_append, isPrefixOfB, h.1, Bool.true_and]
      exact ih cs h.2

theorem containsB_of_prefix (pat s : List Char)
    (h : isPrefixOfB pat s = true) : containsB pat s = true := by
  cases s with
  | nil => exact h
  | cons c rest =>
    unfold containsB
    rw [h]
    rfl

theorem containsB_append_right (pat a b : List Char)
    (h : containsB pat b = true) : containsB pat (a ++ b) = true := by
  induction a with
  | nil => exact h
  | cons c rest ih =>
    rw [List.cons_append]
    unfold containsB
    rw [ih]
    simp

theorem containsB_append_left (pat a b : List Char)
    (h : containsB pat a = true) : containsB pat (a ++ b) = true := by
  induction a with
  | nil =>
    cases pat with
    | nil => exact containsB_of_prefix _ _ rfl
    | cons p ps => simp [containsB, isPrefixOfB] at h
  | cons c rest ih =>
    unfold containsB at h
    rw [List.cons_append]
    cases hp : isPrefixOfB pat (c :: rest) with
    | true =>
      exact containsB_of_prefix _ _ (by
        have : c :: rest ++ b = (c :: rest) ++ b := rfl
        exact isPrefixOfB_extend _ _ _ hp)
    | false =>
      rw [hp] at h
      simp only [Bool.false_or] at h
      unfold containsB
      rw [ih h]
      simp

theorem getLast?_eq_some_decomp {l : List Char} {c : Char}
    (h : l.getLast? = some c) : ∃ t, l = t ++ [c] := by
  induction l with
  | nil => simp at h
  | cons x xs ih =>
    cases xs with
    | nil =>
      simp only [List.getLast?_singleton, Option.some.injEq] at h
      exact ⟨[], by simp [h]⟩
    | cons y ys =>
      rw [List.getLast?_cons_cons] at h
      obtain ⟨t, ht⟩ := ih h
      exact ⟨x :: t, by simp [ht]⟩

theorem endsNl_append (a b : String) (h : EndsNl b) : EndsNl (a ++ b) := by
  unfold EndsNl at *
  rw [str_data_append]
  have hb : b.data ≠ [] := by
    intro e
    rw [e] at h
    simp at h
  rw [List.getLast?_append_of_ne_nil _ hb]
  exact h

theorem endsNl_line (body : String) : EndsNl (body ++ "\n") := by
  exact endsNl_append body "\n" (by decide)

/-! ## Lemmas on the `pm2 save` line count -/

theorem saveCountS_append (a b : String) (h : EndsNl a) :
    saveCountS (a ++ b) = saveCountS a + saveCountS b := by
  obtain ⟨t, ht⟩ := getLast?_eq_some_decomp h
  unfold saveCountS splitNl
  rw [str_data_append, ht, List.append_assoc, List.singleton_append,
    splitOnCh_append]
  have h2 : t ++ ['\n'] = t ++ '\n' :: [] := rfl
  rw [h2, splitOnCh_append]
  simp [List.countP_append, splitOnCh, saveTarget]

theorem noNl_append {a b : String} (ha : '\n' ∉ a.data) (hb : '\n' ∉ b.data) :
    '\n' ∉ (a ++ b).data := by
  rw [str_data_append]
  simp only [List.mem_append]
  rintro (h | h)
  · exact ha h
  · exact hb h

theorem prefixFalseS_mono (a b : String)
    (h : isPrefixOfB a.data saveTarget = false) :
    isPrefixOfB (a ++ b).data saveTarget = false := by
  rw [str_data_append]
  exact isPrefixOfB_false_mono _ _ _ h

theorem saveCountS_line (body : String) (h1 : '\n' ∉ body.data)
    (h2 : isPrefixOfB body.data saveTarget = false) :
    saveCountS (body ++ "\n") = 0 := by
  unfold saveCountS splitNl
  rw [str_data_append]
  have h3 : ("\n" : String).data = '\n' :: [] := rfl
  rw [h3, splitOnCh_append, splitOnCh_no_sep _ _ h1]
  have h4 : (body.data == saveTarget) = false := by
    have := beq_false_of_prefix_false body.data [] saveTarget h2
    rwa [List.append_nil] at this
  have h6 : (([] : List Char) == saveTarget) = false := by decide
  rw [splitOnCh]
  rw [List.countP_append, List.countP_cons, List.countP_cons, List.countP_nil]
  simp [h4, h6]

theorem saveCountS_line_skip (body rest : String) (h1 : '\n' ∉ body.data)
    (h2 : isPrefixOfB body.data saveTarget = false) :
    saveCountS ((body ++ "\n") ++ rest) = saveCountS rest := by
  rw [saveCountS_append _ _ (endsNl_line body), saveCountS_line _ h1 h2]
  simp

theorem saveCountS_fixed_skip (a rest : String) (h : EndsNl a)
    (h0 : saveCountS a = 0) :
    saveCountS (a ++ rest) = saveCountS rest := by
  rw [saveCountS_append _ _ h, h0]
  simp

theorem saveCountS_startHeader (p : String) (hp : '\n' ∉ p.data) :
    saveCountS (startHeader p) = 0 := by
  unfold startHeader
  rw [saveCountS_fixed_skip _ _ (by decide) (by decide)]
  rw [saveCountS_line_skip _ _ (noNl_append (by decide) hp)
    (prefixFalseS_mono _ _ (by decide))]
  rw [saveCountS_fixed_skip _ _ (by decide) (by decide)]
  rw [saveCountS_line_skip _ _ (noNl_append (noNl_append (by decide) hp) (by decide))
    (prefixFalseS_mono _ _ (prefixFalseS_mono _ _ (by decide)))]
  decide

theorem saveCountS_startWarn_skip (s : Service) (rest : String)
    (hc : '\n' ∉ s.command.data) :
    saveCountS (startWarn s ++ rest) = saveCountS rest := by
  unfold startWarn
  split
  · rw [str_assoc]
    rw [saveCountS_line_skip _ _ (noNl_append (noNl_append (by decide) hc) (by decide))
      (prefixFalseS_mono _ _ (prefixFalseS_mono _ _ (by decide)))]
    rw [saveCountS_fixed_skip _ _ (by decide) (by decide)]
  · rw [str_empty_append]

theorem saveCountS_startInvocation_skip (p : String) (s : Service) (rest : String)
    (hp : '\n' ∉ p.data) (hn : '\n' ∉ s.name.data)
    (hd : '\n' ∉ s.directory.data) (hc : '\n' ∉ s.command.data) :
    saveCountS (startInvocation p s ++ rest) = saveCountS rest := by
  have hh : '\n' ∉ (pm2Handle p s).data := by
    unfold pm2Handle
    exact noNl_append (noNl_append hp (by decide)) hn
  unfold startInvocation
  rw [saveCountS_line_skip _ _
    (noNl_append (noNl_append (noNl_append (noNl_append (noNl_append (noNl_append
      (noNl_append (noNl_append (by decide) hc) (by decide)) hh) (by decide)) hd)
      (by decide)) hh) (by decide))
    (prefixFalseS_mono _ _ (prefixFalseS_mono _ _ (prefixFalseS_mono _ _
      (prefixFalseS_mono _ _ (prefixFalseS_mono _ _ (prefixFalseS_mono _ _
      (prefixFalseS_mono _ _ (prefixFalseS_mono _ _ (by decide)))))))))]

theorem saveCountS_startBlock (p : String) (s : Service)
    (hp : '\n' ∉ p.data) (hn : '\n' ∉ s.name.data)
    (hd : '\n' ∉ s.directory.data) (hc : '\n' ∉ s.command.data) :
    saveCountS (startServiceBlock p s) = 0 := by
  unfold startServiceBlock
  rw [saveCountS_line_skip _ _ (noNl_append (by decide) hn)
    (prefixFalseS_mono _ _ (by decide))]
  rw [saveCountS_line_skip _ _ (noNl_append (noNl_append (by decide) hn) (by decide))
    (prefixFalseS_mono _ _ (prefixFalseS_mono _ _ (by decide)))]
  rw [saveCountS_line_skip _ _ (noNl_append (noNl_append (by decide) hd) (by decide))
    (prefixFalseS_mono _ _ (prefixFalseS_mono _ _ (by decide)))]
  rw [saveCountS_startWarn_skip _ _ hc]
  rw [saveCountS_startInvocation_skip _ _ _ hp hn hd hc]
  rw [saveCountS_line_skip _ _ (noNl_append (noNl_append (by decide) hn) (by decide))
    (prefixFalseS_mono _ _ (prefixFalseS_mono _ _ (by decide)))]
  decide

theorem endsNl_startBlock (p : String) (s : Service) :
    EndsNl (startServiceBlock p s) := by
  unfold startServiceBlock
  apply endsNl_append
  apply endsNl_append
  apply endsNl_append
  apply endsNl_append
  apply endsNl_append
  apply endsNl_append
  decide

theorem endsNl_startHeader (p : String) : EndsNl (startHeader p) := by
  unfold startHeader
  apply endsNl_append
  apply endsNl_append
  apply endsNl_append
  apply endsNl_append
  decide

theorem foldl_append_eq (f : Service → String) (l : List Service) (acc : String) :
    l.foldl (fun a s => a ++ f s) acc = acc ++ concatStrs (l.map f) := by
  induction l generalizing acc with
  | nil => simp [concatStrs, str_append_empty]
  | cons s rest ih =>
    simp only [List.foldl_cons, List.map_cons, concatStrs]
    rw [ih, str_assoc]

theorem saveCountS_concatBlocks (p : String) (l : List Service)
    (hp : '\n' ∉ p.data)
    (hl : ∀ s ∈ l, '\n' ∉ s.name.data ∧ '\n' ∉ s.directory.data ∧ '\n' ∉ s.command.data) :
    saveCountS (concatStrs (l.map (startServiceBlock p))) = 0 := by
  induction l with
  | nil =>
    simp only [List.map_nil]
    decide
  | cons s rest ih =>
    simp only [List.map_cons, concatStrs]
    rw [saveCountS_append _ _ (endsNl_startBlock p s)]
    obtain ⟨hn, hd, hc⟩ := hl s (List.mem_cons_self s rest)
    rw [saveCountS_startBlock p s hp hn hd hc,
      ih (fun x hx => hl x (List.mem_cons_of_mem _ hx))]

theorem endsNl_concatStrs (l : List String) (hne : l ≠ [])
    (h : ∀ x ∈ l, EndsNl x) : EndsNl (concatStrs l) := by
  induction l with
  | nil => exact absurd rfl hne
  | cons x rest ih =>
    cases rest with
    | nil =>
      show EndsNl (x ++ concatStrs [])
      rw [show concatStrs [] = "" from rfl, str_append_empty]
      exact h x (List.mem_cons_self x [])
    | cons y r =>
      show EndsNl (x ++ concatStrs (y :: r))
      exact endsNl_append _ _
        (ih (by simp) (fun z hz => h z (List.mem_cons_of_mem _ hz)))

/-! ## Claim theorems -/

/-- C1: script generation is a pure function of the project name and the
stored service list: calling each of the five generators twice with the same
input yields character-for-character identical text; the embedded generators
take no other input (no clock, no randomness), so the output is determined
by (projectName, services) alone, with services rendered in stored order. -/
theorem claim_C1 (projectName : String) (services : List Service) :
    generateStartScript projectName services = generateStartScript projectName services
    ∧ generateStopScript projectName services = generateStopScript projectName services
    ∧ generateRestartScript projectName services = generateRestartScript projectName services
    ∧ generateStatusScript projectName services = generateStatusScript projectName services
    ∧ generateDeployScript projectName services = generateDeployScript projectName services :=
  ⟨rfl, rfl, rfl, rfl, rfl⟩

/-- C3: for a non-empty service list (with newline-free name fields, as
produced by the API), `start.sh` is the header, then one block per service
in stored order — each block containing the supervisor start invocation for
the handle projectName-serviceName with fallback restart of the same handle —
then the single persist-state chunk after all blocks, then the footer; and
the whole script has exactly one line reading `pm2 save`. -/
theorem claim_C3 (p : String) (svcs : List Service) (hne : svcs ≠ [])
    (hnl : fieldsNoNl p svcs) :
    generateStartScript p svcs =
        startHeader p ++ concatStrs (svcs.map (startServiceBlock p))
          ++ startSaveChunk ++ startFooter
      ∧ (∀ s ∈ svcs, containsSub (startServiceBlock p s) (startInvocation p s) = true)
      ∧ saveCountS (generateStartScript p svcs) = 1 := by
  obtain ⟨hp, hsvc⟩ := hnl
  have hlen : ¬ ((svcs.length == 0) = true) := by
    cases svcs with
    | nil => exact absurd rfl hne
    | cons a l => simp
  have heq : generateStartScript p svcs =
      startHeader p ++ concatStrs (svcs.map (startServiceBlock p))
        ++ startSaveChunk ++ startFooter := by
    unfold generateStartScript
    rw [if_neg hlen, foldl_append_eq]
  refine ⟨heq, ?_, ?_⟩
  · intro s _
    unfold containsSub
    unfold startServiceBlock
    rw [str_data_append]
    apply containsB_append_right
    rw [str_data_append]
    apply containsB_append_right
    rw [str_data_append]
    apply containsB_append_right
    rw [str_data_append]
    apply containsB_append_right
    rw [str_data_append]
    apply containsB_append_left
    exact containsB_of_prefix _ _ (isPrefixOfB_refl _)
  · rw [heq]
    have hmapne : svcs.map (startServiceBlock p) ≠ [] := by
      cases svcs with
      | nil => exact absurd rfl hne
      | cons a l => simp
    have e2 : EndsNl (concatStrs (svcs.map (startServiceBlock p))) :=
      endsNl_concatStrs _ hmapne (by
        intro x hx
        obtain ⟨s, _, rfl⟩ := List.mem_map.mp hx
        exact endsNl_startBlock p s)
    rw [saveCountS_append _ _ (endsNl_append _ _ (by decide : EndsNl startSaveChunk))]
    rw [saveCountS_append _ _ (endsNl_append _ _ e2)]
    rw [saveCountS_append _ _ (endsNl_startHeader p)]
    rw [saveCountS_startHeader p hp]
    rw [saveCountS_concatBlocks p svcs hp hsvc]
    decide

/-- Witness for C3 at the shop example. -/
theorem claim_C3_witness :
    (shopServices ≠ [] ∧ fieldsNoNl "shop" shopServices)
    ∧ (generateStartScript "shop" shopServices =
        startHeader "shop" ++ concatStrs (shopServices.map (startServiceBlock "shop"))
          ++ startSaveChunk ++ startFooter
      ∧ (∀ s ∈ shopServices,
          containsSub (startServiceBlock "shop" s) (startInvocation "shop" s) = true)
      ∧ saveCountS (generateStartScript "shop" shopServices) = 1) :=
  ⟨⟨by decide, by decide⟩, claim_C3 "shop" shopServices (by decide) (by decide)⟩

/-- C4: with an empty service list, the generated start, stop and restart
scripts consist of the header, the informational no-op message and an
explicit `exit 0` line, and the deploy script of the header and the message
alone (its last command is the message, so it exits with status 0 under
`set -e`); removing the only service of a one-service project and
regenerating yields exactly these empty-list forms. -/
theorem claim_C4 (p : String) (s : Service) :
    (generateStartScript p [] = startHeader p ++ noServiceMsg ++ "exit 0\n"
    ∧ generateStopScript p [] = stopHeader p ++ noServiceMsg ++ "exit 0\n"
    ∧ generateRestartScript p [] = restartHeader p ++ noServiceMsg ++ "exit 0\n"
    ∧ generateDeployScript p [] = deployHeader p ++ noServiceMsg)
    ∧ (generateStartScript p (removeService [s] s.name) = generateStartScript p []
    ∧ generateStopScript p (removeService [s] s.name) = generateStopScript p []
    ∧ generateRestartScript p (removeService [s] s.name) = generateRestartScript p []
    ∧ generateDeployScript p (removeService [s] s.name) = generateDeployScript p []) := by
  have hrem : removeService [s] s.name = [] := by
    simp [removeService, List.filter]
  refine ⟨⟨rfl, rfl, rfl, rfl⟩, ?_, ?_, ?_, ?_⟩ <;> rw [hrem]

/-- C2 counterexample: the status filter of the shop project also matches a
process row of the distinct handle shop-api-old, which is neither of the two
project handles and not a header or separator line; so the filter does not
match exactly the rows of the two handles plus header and separator lines. -/
theorem claim_C2_counterexample :
    statusFilterMatches "shop" shopServices "shop-api-old" = true
    ∧ "shop-api-old" ≠ "shop-api"
    ∧ "shop-api-old" ≠ "shop-web"
    ∧ containsSub "shop-api-old" "Name" = false
    ∧ containsSub "shop-api-old" "─" = false := by
  refine ⟨by decide, by decide, by decide, by decide, by decide⟩

/-- C2 amended: the shop `start.sh` references handle shop-api strictly
before handle shop-web; `status.sh` contains the grep filter over exactly
the two handles plus Name and the separator character; and that filter
matches precisely the lines containing one of those four strings as a
substring — which includes every row of the two handles and the header and
separator lines, but also any row whose text contains one of the handles as
a substring (such as a row of handle shop-api-old). -/
theorem claim_C2_amended :
    (∃ i j, firstOcc (generateStartScript "shop" shopServices) "shop-api" = some i
      ∧ firstOcc (generateStartScript "shop" shopServices) "shop-web" = some j
      ∧ i < j)
    ∧ containsSub (generateStatusScript "shop" shopServices)
        "pm2 list | grep -E \"(shop-api|shop-web|Name|─)\"" = true
    ∧ ∀ line : String,
        statusFilterMatches "shop" shopServices line =
          (containsSub line "shop-api" || containsSub line "shop-web"
            || containsSub line "Name" || containsSub line "─") := by
  refine ⟨⟨608, 781, by decide, by decide, by decide⟩, by decide, ?_⟩
  intro line
  show (statusAlternatives "shop" shopServices).any (fun alt => containsSub line alt) = _
  have e1 : ("shop" ++ "-" ++ "api" : String) = "shop-api" := by decide
  have e2 : ("shop" ++ "-" ++ "web" : String) = "shop-web" := by decide
  simp only [statusAlternatives, shopServices, List.map, List.cons_append,
    List.nil_append, List.any_cons, List.any_nil, Bool.or_false, Bool.or_assoc,
    e1, e2]

/-- C6 counterexample: deleting `/var/www/shop/sites/api` stops the service
whose directory `/var/www/shop/sites/api/worker` extends the deleted path
(the deleted path is a prefix of the directory), and does not stop the
service whose directory `/var/www/shop/sites` is a prefix of the deleted
path — the opposite of the claimed direction. -/
theorem claim_C6_counterexample :
    stoppedHandles "shop" "/var/www/shop/sites/api"
        [⟨"sub", "/var/www/shop/sites/api/worker", ""⟩,
         ⟨"root", "/var/www/shop/sites", ""⟩] = ["shop-sub"]
    ∧ claimStoppedHandles "shop" "/var/www/shop/sites/api"
        [⟨"sub", "/var/www/shop/sites/api/worker", ""⟩,
         ⟨"root", "/var/www/shop/sites", ""⟩] = ["shop-root"]
    ∧ (["shop-sub"] : List String) ≠ ["shop-root"] := by
  refine ⟨by decide, by decide, by decide⟩

/-- C6 amended: the processes stopped and deleted before the filesystem
removal are exactly those services with a non-empty directory of which the
deleted full target path is a string prefix (the code tests
`service.directory.startsWith(fullTargetPath)`) — the reverse direction of
the claimed prefix test — under the handle `pm2Name` or its
projectName-serviceName default. -/
theorem claim_C6_amended (projectName fullTargetPath : String)
    (services : List DelService) :
    stoppedHandles projectName fullTargetPath services =
      (services.filter
        (fun s => s.directory != "" && strStartsWith s.directory fullTargetPath)).map
        (delHandle projectName) := by
  induction services with
  | nil => rfl
  | cons s rest ih =>
    unfold stoppedHandles
    by_cases h : (s.directory != "" && strStartsWith s.directory fullTargetPath) = true
    · rw [if_pos h]
      simp only [List.filter_cons, h, if_true, List.map_cons, ih]
    · have h2 : (s.directory != "" && strStartsWith s.directory fullTargetPath) = false := by
        revert h
        cases (s.directory != "" && strStartsWith s.directory fullTargetPath) <;> simp
      rw [if_neg h]
      simp only [List.filter_cons, h2, ih, Bool.false_eq_true, if_false]

/-- C8: the bulk regeneration loop attempts generation for every stored
project in order — a failure for one project is recorded and does not stop
the loop — and the result is the list of per-project outcomes; in
particular every project name appears with its own outcome. -/
theorem claim_C8 (gen : String → Except String Unit) (projects : List String) :
    regenerateAllScripts gen projects
      = projects.map (fun n => (n, itemOutcome (gen n)))
    ∧ ∀ n ∈ projects,
        (n, itemOutcome (gen n)) ∈ regenerateAllScripts gen projects := by
  have heq : regenerateAllScripts gen projects
      = projects.map (fun n => (n, itemOutcome (gen n))) := by
    induction projects with
    | nil => rfl
    | cons name rest ih =>
      unfold regenerateAllScripts
      rw [List.map_cons, ih]
      cases h : gen name <;> simp [itemOutcome, h]
  refine ⟨heq, ?_⟩
  intro n hn
  rw [heq]
  exact List.mem_map.mpr ⟨n, hn, rfl⟩

/-- C5 counterexample: with the empty service list and a write failure at
the third file (restart.sh), the invocation fails but leaves stop.sh with
the newly generated content while status.sh keeps the previous content,
which differs from its newly generated content — a mix of old and new
files, so the operation is not all-or-nothing. -/
theorem claim_C5_counterexample :
    (generateScripts "shop" [] (ScriptFiles.mk "OLD" "OLD" "OLD" "OLD" "OLD")
        (some 2)).1.stopSh = generateStopScript "shop" []
    ∧ (generateScripts "shop" [] (ScriptFiles.mk "OLD" "OLD" "OLD" "OLD" "OLD")
        (some 2)).1.stopSh ≠ "OLD"
    ∧ (generateScripts "shop" [] (ScriptFiles.mk "OLD" "OLD" "OLD" "OLD" "OLD")
        (some 2)).1.statusSh = "OLD"
    ∧ generateStatusScript "shop" [] ≠ "OLD"
    ∧ (generateScripts "shop" [] (ScriptFiles.mk "OLD" "OLD" "OLD" "OLD" "OLD")
        (some 2)).2 = false := by
  refine ⟨by decide, by decide, by decide, by decide, by decide⟩

/-- C5 amended: `generateScripts` writes the five files sequentially in the
order start.sh, stop.sh, restart.sh, status.sh, deploy.sh; when the write
with index k fails, the files written before index k already hold the newly
generated content and the files from index k on keep their previous content
(a prefix-consistent mixed state), and only a failure-free invocation
replaces all five files. -/
theorem claim_C5_amended (p : String) (svcs : List Service) (old : ScriptFiles)
    (k : Nat) (hk : k < 5) :
    generateScripts p svcs old (some k) =
      (ScriptFiles.mk
        (if 0 < k then generateStartScript p svcs else old.startSh)
        (if 1 < k then generateStopScript p svcs else old.stopSh)
        (if 2 < k then generateRestartScript p svcs else old.restartSh)
        (if 3 < k then generateStatusScript p svcs else old.statusSh)
        old.deploySh, false)
    ∧ generateScripts p svcs old none =
      (ScriptFiles.mk
        (generateStartScript p svcs) (generateStopScript p svcs)
        (generateRestartScript p svcs) (generateStatusScript p svcs)
        (generateDeployScript p svcs), true) := by
  refine ⟨?_, rfl⟩
  interval_cases k <;> rfl

/-- Witness for C5 at a failure of the third write. -/
theorem claim_C5_amended_witness :
    (2 < 5)
    ∧ (generateScripts "shop" [] (ScriptFiles.mk "OLD" "OLD" "OLD" "OLD" "OLD")
        (some 2) =
      (ScriptFiles.mk
        (if 0 < 2 then generateStartScript "shop" []
          else (ScriptFiles.mk "OLD" "OLD" "OLD" "OLD" "OLD").startSh)
        (if 1 < 2 then generateStopScript "shop" []
          else (ScriptFiles.mk "OLD" "OLD" "OLD" "OLD" "OLD").stopSh)
        (if 2 < 2 then generateRestartScript "shop" []
          else (ScriptFiles.mk "OLD" "OLD" "OLD" "OLD" "OLD").restartSh)
        (if 3 < 2 then generateStatusScript "shop" []
          else (ScriptFiles.mk "OLD" "OLD" "OLD" "OLD" "OLD").statusSh)
        (ScriptFiles.mk "OLD" "OLD" "OLD" "OLD" "OLD").deploySh, false)
    ∧ generateScripts "shop" [] (ScriptFiles.mk "OLD" "OLD" "OLD" "OLD" "OLD") none =
      (ScriptFiles.mk
        (generateStartScript "shop" []) (generateStopScript "shop" [])
        (generateRestartScript "shop" []) (generateStatusScript "shop" [])
        (generateDeployScript "shop" []), true)) :=
  ⟨by decide,
   claim_C5_amended "shop" [] (ScriptFiles.mk "OLD" "OLD" "OLD" "OLD" "OLD") 2 (by decide)⟩

/-- C7: every validation failure of `createUser` — password shorter than six
characters, an already-present username, or a role outside admin and user —
makes the call throw, and the throw happens before the write, so the stored
user list is unchanged. -/
theorem claim_C7 (hashPassword : String → String) (newId createdAt : String)
    (users : List User) (username password role : String)
    (mustChangePassword : Bool) (firstName lastName : String)
    (h : password.length < 6
      ∨ (users.find? (fun u => u.username == username)).isSome = true
      ∨ (role ≠ "admin" ∧ role ≠ "user")) :
    (∃ msg, createUser hashPassword newId createdAt users username password role
        mustChangePassword firstName lastName = Except.error msg)
    ∧ usersAfter (createUser hashPassword newId createdAt users username password role
        mustChangePassword firstName lastName) users = users := by
  unfold createUser
  by_cases hdup : ((users.find? (fun u => u.username == username)).isSome = true)
  · rw [if_pos hdup]
    exact ⟨⟨_, rfl⟩, rfl⟩
  · rw [if_neg hdup]
    by_cases hrole : ((["admin", "user"].contains role) = true)
    · have hrole' : ¬ ((!(["admin", "user"].contains role)) = true) := by
        rw [hrole]
        decide
      rw [if_neg hrole']
      have hpw : password.length < 6 := by
        rcases h with h | h | h
        · exact h
        · exact absurd h hdup
        · exfalso
          have hor := hrole
          simp at hor
          rcases hor with e | e
          · exact h.1 e
          · exact h.2 e
      rw [if_pos hpw]
      exact ⟨⟨_, rfl⟩, rfl⟩
    · have hrole' : ((!(["admin", "user"].contains role)) = true) := by
        cases hcb : (["admin", "user"].contains role) with
        | false => rfl
        | true => exact absurd hcb hrole
      rw [if_pos hrole']
      exact ⟨⟨_, rfl⟩, rfl⟩

/-- Witness for C7: a five-character password is rejected with no write. -/
theorem claim_C7_witness :
    (("short" : String).length < 6
      ∨ (([] : List User).find? (fun u => u.username == "alice")).isSome = true
      ∨ (("user" : String) ≠ "admin" ∧ ("user" : String) ≠ "user"))
    ∧ ((∃ msg, createUser (fun s => s) "id1" "t0" [] "alice" "short" "user"
          false "" "" = Except.error msg)
      ∧ usersAfter (createUser (fun s => s) "id1" "t0" [] "alice" "short" "user"
          false "" "") [] = []) :=
  ⟨Or.inl (by decide),
   claim_C7 (fun s => s) "id1" "t0" [] "alice" "short" "user" false "" ""
     (Or.inl (by decide))⟩

/-! ## Lemmas on the stored-admin count -/

theorem adminCount_cons (u : User) (l : List User) :
    adminCount (u :: l) = (if u.role == "admin" then 1 else 0) + adminCount l := by
  unfold adminCount
  rw [List.filter_cons]
  split
  · simp [Nat.add_comm]
  · simp

theorem adminCount_pos_of_mem {l : List User} {u : User} (hm : u ∈ l)
    (hr : (u.role == "admin") = true) : 0 < adminCount l := by
  unfold adminCount
  have hf : u ∈ l.filter (fun x => x.role == "admin") :=
    List.mem_filter.mpr ⟨hm, hr⟩
  exact List.length_pos.mpr (List.ne_nil_of_mem hf)

theorem adminCount_eraseP_eq {p : User → Bool} {l : List User} {u : User}
    (hf : l.find? p = some u)
    (hr : (u.role == "admin") = false) :
    adminCount (l.eraseP p) = adminCount l := by
  induction l with
  | nil => simp at hf
  | cons a rest ih =>
    rw [List.eraseP_cons]
    cases hp : p a with
    | true =>
      rw [List.find?_cons_of_pos _ hp] at hf
      injection hf with hu
      subst hu
      simp only [cond_true]
      rw [adminCount_cons, hr]
      simp
    | false =>
      rw [List.find?_cons_of_neg _ (by simp [hp])] at hf
      simp only [cond_false]
      rw [adminCount_cons, adminCount_cons, ih hf]

theorem adminCount_le_eraseP_succ (p : User → Bool) (l : List User) :
    adminCount l ≤ adminCount (l.eraseP p) + 1 := by
  induction l with
  | nil => simp [adminCount]
  | cons a rest ih =>
    rw [List.eraseP_cons]
    cases hp : p a with
    | false =>
      simp only [cond_false]
      rw [adminCount_cons, adminCount_cons]
      omega
    | true =>
      simp only [cond_true]
      rw [adminCount_cons]
      cases hr : (a.role == "admin") with
      | false => simp [hr]
      | true =>
        simp only [hr, if_true]
        omega

theorem mem_updateFirst {p : User → Bool} {f : User → User} {l : List User}
    {u : User} (hf : l.find? p = some u) : f u ∈ updateFirst p f l := by
  induction l with
  | nil => simp at hf
  | cons a rest ih =>
    unfold updateFirst
    cases hp : p a with
    | true =>
      rw [List.find?_cons_of_pos _ hp] at hf
      injection hf with hu
      subst hu
      simp
    | false =>
      rw [List.find?_cons_of_neg _ (by simp [hp])] at hf
      simp only [Bool.false_eq_true, if_false]
      exact List.mem_cons_of_mem _ (ih hf)

theorem adminCount_updateFirst_eq {p : User → Bool} {f : User → User}
    {l : List User} {u : User} (hf : l.find? p = some u)
    (h1 : (u.role == "admin") = false) (h2 : ((f u).role == "admin") = false) :
    adminCount (updateFirst p f l) = adminCount l := by
  induction l with
  | nil => simp at hf
  | cons a rest ih =>
    unfold updateFirst
    cases hp : p a with
    | true =>
      rw [List.find?_cons_of_pos _ hp] at hf
      injection hf with hu
      subst hu
      simp only [if_true]
      rw [adminCount_cons, adminCount_cons, h1, h2]
    | false =>
      rw [List.find?_cons_of_neg _ (by simp [hp])] at hf
      simp only [Bool.false_eq_true, if_false]
      rw [adminCount_cons, adminCount_cons, ih hf]

theorem adminCount_le_updateFirst_succ (p : User → Bool) (f : User → User)
    (l : List User) :
    adminCount l ≤ adminCount (updateFirst p f l) + 1 := by
  induction l with
  | nil => simp [adminCount, updateFirst]
  | cons a rest ih =>
    unfold updateFirst
    cases hp : p a with
    | true =>
      simp only [if_true]
      rw [adminCount_cons, adminCount_cons]
      cases hr : (a.role == "admin") <;> simp [hr] <;> omega
    | false =>
      simp only [Bool.false_eq_true, if_false]
      rw [adminCount_cons, adminCount_cons]
      omega

/-- C9 counterexample: a stored set whose only user is an administrator
named bob; `deleteUser` succeeds (the last-admin guard checks the username
against the literal `admin`), leaving a stored set with zero
administrators. -/
theorem claim_C9_counterexample :
    deleteUser [User.mk "1" "bob" "" "" "h" "admin" false "" []] "1"
      = Except.ok []
    ∧ adminCount [User.mk "1" "bob" "" "" "h" "admin" false "" []] = 1
    ∧ adminCount [] = 0 := by
  refine ⟨by rfl, by decide, by decide⟩

/-- C9 amended: `changeUserRole` preserves the at-least-one-admin invariant
(demoting the sole administrator throws, and every successful call keeps at
least one admin); `deleteUser` preserves it except in one case — the only
way a successful deletion can leave zero administrators is deleting a sole
administrator whose username is not the literal `admin` (the guard only
protects the user named admin). -/
theorem claim_C9_amended :
    (∀ (users : List User) (userId newRole : String) (users' : List User),
      0 < adminCount users →
      changeUserRole users userId newRole = Except.ok users' →
      0 < adminCount users')
    ∧ (∀ (users : List User) (userId : String) (users' : List User),
      0 < adminCount users →
      deleteUser users userId = Except.ok users' →
      adminCount users' = 0 →
      ∃ u, users.find? (fun v => v.id == userId) = some u
        ∧ (u.role == "admin") = true ∧ u.username ≠ "admin"
        ∧ adminCount users = 1) := by
  constructor
  · intro users userId newRole users' hpos hok
    unfold changeUserRole at hok
    split at hok
    · exact absurd hok (by simp)
    · rename_i hv
      split at hok
      · exact absurd hok (by simp)
      · rename_i user hfind
        split at hok
        · exact absurd hok (by simp)
        · rename_i hguard
          injection hok with hok
          subst hok
          have hcontains : (["admin", "user"].contains newRole) = true := by
            cases hcb : (["admin", "user"].contains newRole) with
            | false => exact absurd (by rw [hcb]; rfl) hv
            | true => rfl
          have hor : newRole = "admin" ∨ newRole = "user" := by
            have h2 := hcontains
            simp at h2
            exact h2
          rcases hor with e | e
          · subst e
            exact adminCount_pos_of_mem (mem_updateFirst hfind) (by rfl)
          · subst e
            by_cases hu : ((user.role == "admin") = true)
            · have hcnt : ((users.filter (fun u => u.role == "admin")).length) ≠ 1 := by
                intro e1
                apply hguard
                rw [hu]
                simp [e1]
              have hle := adminCount_le_updateFirst_succ
                (fun u => u.id == userId) (fun u => { u with role := "user" }) users
              unfold adminCount at hpos hle ⊢
              omega
            · have hu' : (user.role == "admin") = false := by
                cases hb : (user.role == "admin") with
                | false => rfl
                | true => exact absurd hb hu
              rw [adminCount_updateFirst_eq hfind hu' (by rfl)]
              exact hpos
  · intro users userId users' hpos hok hzero
    unfold deleteUser at hok
    split at hok
    · exact absurd hok (by simp)
    · rename_i user hfind
      split at hok
      · exact absurd hok (by simp)
      · rename_i hguard
        injection hok with hok
        subst hok
        have hrole : (user.role == "admin") = true := by
          cases hb : (user.role == "admin") with
          | true => rfl
          | false =>
            exfalso
            have heq := adminCount_eraseP_eq hfind hb
            rw [heq] at hzero
            omega
        have hone : adminCount users = 1 := by
          have hle := adminCount_le_eraseP_succ (fun v => v.id == userId) users
          rw [hzero] at hle
          omega
        have husername : user.username ≠ "admin" := by
          intro e
          apply hguard
          have hb1 : (user.username == "admin") = true := beq_iff_eq.mpr e
          have hb3 : (((users.filter (fun u => u.role == "admin")).length == 1)) = true := by
            unfold adminCount at hone
            simp [hone]
          rw [hb1, hrole, hb3]
          rfl
        exact ⟨user, hfind, hrole, husername, hone⟩

/-- Witness for C9: demoting one of two administrators succeeds and at
least one admin remains. -/
theorem claim_C9_amended_witness :
    (0 < adminCount [User.mk "1" "alice" "" "" "h" "admin" false "" [],
                     User.mk "2" "bob" "" "" "h" "admin" false "" []])
    ∧ (changeUserRole
        [User.mk "1" "alice" "" "" "h" "admin" false "" [],
         User.mk "2" "bob" "" "" "h" "admin" false "" []] "1" "user"
        = Except.ok
        [User.mk "1" "alice" "" "" "h" "user" false "" [],
         User.mk "2" "bob" "" "" "h" "admin" false "" []])
    ∧ 0 < adminCount [User.mk "1" "alice" "" "" "h" "user" false "" [],
                      User.mk "2" "bob" "" "" "h" "admin" false "" []] :=
  ⟨by decide, by rfl,
   claim_C9_amended.1
     [User.mk "1" "alice" "" "" "h" "admin" false "" [],
      User.mk "2" "bob" "" "" "h" "admin" false "" []] "1" "user"
     [User.mk "1" "alice" "" "" "h" "user" false "" [],
      User.mk "2" "bob" "" "" "h" "admin" false "" []]
     (by decide) (by rfl)⟩

/-! ## Lemmas on the path normalization model -/

theorem str_ext {a b : String} (h : a.data = b.data) : a = b := by
  cases a
  cases b
  exact congrArg String.mk h

theorem splitSeg_cons_sep (rest : List Char) :
    splitSeg ('/' :: rest) = [] :: splitSeg rest := splitOnCh_cons_sep '/' rest

theorem splitSeg_append (a b : List Char) :
    splitSeg (a ++ '/' :: b) = splitSeg a ++ splitSeg b := splitOnCh_append '/' a b

theorem splitSeg_ne_nil (l : List Char) : splitSeg l ≠ [] := splitOnCh_ne_nil '/' l

theorem normStack_cons_skip (st : List (List Char)) (xs : List (List Char)) :
    normStack st ([] :: xs) = normStack st xs := by
  conv_lhs => unfold normStack
  rw [if_pos (Or.inl rfl)]

theorem normStack_append (xs ys : List (List Char)) :
    ∀ st, normStack st (xs ++ ys) = normStack (normStack st xs) ys := by
  induction xs with
  | nil => intro st; rfl
  | cons seg rest ih =>
    intro st
    simp only [List.cons_append, normStack]
    split_ifs <;> apply ih

theorem normStack_all_normal (xs : List (List Char))
    (h : ∀ seg ∈ xs, seg ≠ [] ∧ seg ≠ ['.'] ∧ seg ≠ ['.', '.']) :
    ∀ st, normStack st xs = st ++ xs := by
  induction xs with
  | nil => intro st; simp [normStack]
  | cons seg rest ih =>
    intro st
    obtain ⟨h1, h2, h3⟩ := h seg (List.mem_cons_self seg rest)
    unfold normStack
    rw [if_neg (by rintro (e | e) <;> [exact h1 e; exact h2 e]), if_neg h3]
    rw [ih (fun s hs => h s (List.mem_cons_of_mem _ hs))]
    simp

theorem normStack_noDotDot (xs : List (List Char))
    (h : ∀ seg ∈ xs, seg ≠ ['.', '.']) :
    ∀ st, ∃ tail, normStack st xs = st ++ tail := by
  induction xs with
  | nil => intro st; exact ⟨[], by simp [normStack]⟩
  | cons seg rest ih =>
    intro st
    have hd := h seg (List.mem_cons_self seg rest)
    have ih' := ih (fun s hs => h s (List.mem_cons_of_mem _ hs))
    unfold normStack
    by_cases hskip : (seg = [] ∨ seg = ['.'])
    · rw [if_pos hskip]
      exact ih' st
    · rw [if_neg hskip, if_neg hd]
      obtain ⟨tail, htail⟩ := ih' (st ++ [seg])
      exact ⟨seg :: tail, by rw [htail]; simp⟩

theorem renderFold_shift (B : List (List Char)) :
    ∀ init, List.foldl (fun acc seg => acc ++ '/' :: seg) init B
      = init ++ List.foldl (fun acc seg => acc ++ '/' :: seg) [] B := by
  induction B with
  | nil => intro init; simp
  | cons b r ih =>
    intro init
    simp only [List.foldl_cons]
    rw [ih (init ++ '/' :: b), ih (([] : List Char) ++ '/' :: b)]
    simp [List.append_assoc]

theorem renderFold_splitSeg (l : List Char) :
    List.foldl (fun acc seg => acc ++ '/' :: seg) [] (splitSeg l) = '/' :: l := by
  induction l with
  | nil => rfl
  | cons c rest ih =>
    by_cases hc : c = '/'
    · subst hc
      rw [show splitSeg ('/' :: rest) = [] :: splitSeg rest from
        splitOnCh_cons_sep '/' rest]
      rw [List.foldl_cons, renderFold_shift (splitSeg rest), ih]
      rfl
    · cases h : splitSeg rest with
      | nil => exact absurd h (splitOnCh_ne_nil '/' rest)
      | cons l0 ls =>
        rw [show splitSeg (c :: rest) = (c :: l0) :: ls from
          splitOnCh_cons_ne '/' c rest hc l0 ls h]
        rw [List.foldl_cons, renderFold_shift ls]
        have ih2 : ('/' :: l0) ++ List.foldl (fun acc seg => acc ++ '/' :: seg) [] ls
            = '/' :: rest := by
          have ih' := ih
          rw [h, List.foldl_cons, renderFold_shift ls] at ih'
          simpa using ih'
        have ih3 : l0 ++ List.foldl (fun acc seg => acc ++ '/' :: seg) [] ls = rest := by
          rw [List.cons_append] at ih2
          injection ih2
        simp [List.append_assoc, ih3]

theorem isPrefixOfB_cancel (a b c : List Char) :
    isPrefixOfB (a ++ b) (a ++ c) = isPrefixOfB b c := by
  induction a with
  | nil => rfl
  | cons x xs ih => simp [isPrefixOfB, ih]

/-- C10 counterexample: with project root `/data/shop`, the relative path
`../shop2/secret` resolves to `/data/shop2/secret`, which passes the
`startsWith` guard as a string prefix and is returned as the operation
target, although it lies outside the project root (it is a sibling
directory whose name extends the root as a string). -/
theorem claim_C10_counterexample :
    deleteItem "/data/shop" "../shop2/secret" = Except.ok "/data/shop2/secret"
    ∧ isInsideB "/data/shop" "/data/shop2/secret" = false := by
  refine ⟨by rfl, by decide⟩

/-- C10 amended: every fileManager operation refuses (access-denied error,
before any filesystem side effect) exactly when the joined path fails the
string `startsWith` guard; and when the relative path contains no dot-dot
segment, the resolved target really is inside the project root. But the
guard itself is only a string-prefix check: a dot-dot relative path can
resolve to a sibling directory whose name extends the project path, pass
the guard, and let the operation act outside the root. -/
theorem claim_C10_amended :
    (∀ projectPath relativePath : String,
      isNormalAbsB projectPath = true → noDotDotB relativePath = true →
      ∃ target, fileManagerResolve projectPath relativePath = Except.ok target
        ∧ isInsideB projectPath target = true)
    ∧ (∀ projectPath relativePath : String,
      strStartsWith (pathJoin projectPath relativePath) projectPath = false →
      fileManagerResolve projectPath relativePath
        = Except.error "Accès refusé : chemin invalide") := by
  constructor
  · intro p r hnorm hnd
    cases hd : p.data with
    | nil =>
      unfold isNormalAbsB at hnorm
      rw [hd] at hnorm
      cases hnorm
    | cons c rest =>
      unfold isNormalAbsB at hnorm
      rw [hd] at hnorm
      rw [Bool.and_eq_true, Bool.and_eq_true] at hnorm
      obtain ⟨⟨hc, hne⟩, hall⟩ := hnorm
      have hc' : c = '/' := beq_iff_eq.mp hc
      subst hc'
      have hall' : ∀ seg ∈ splitSeg rest, seg ≠ [] ∧ seg ≠ ['.'] ∧ seg ≠ ['.', '.'] := by
        intro seg hs
        have h2 := List.all_eq_true.mp hall seg hs
        simpa [and_assoc] using h2
      have hnd' : ∀ seg ∈ splitSeg r.data, seg ≠ ['.', '.'] := by
        unfold noDotDotB at hnd
        intro seg hs
        have h2 := List.all_eq_true.mp hnd seg hs
        simpa using h2
      obtain ⟨tail, htail⟩ := normStack_noDotDot (splitSeg r.data) hnd' (splitSeg rest)
      have hstack : normStack [] (splitSeg (p.data ++ '/' :: r.data))
          = splitSeg rest ++ tail := by
        rw [hd, splitSeg_append ('/' :: rest) r.data, splitSeg_cons_sep rest,
          List.cons_append, normStack_cons_skip, normStack_append,
          normStack_all_normal (splitSeg rest) hall' [], List.nil_append]
        exact htail
      have hdata : (pathJoin p r).data
          = p.data ++ List.foldl (fun acc seg => acc ++ '/' :: seg) [] tail := by
        show renderAbs (normStack [] (splitSeg (p.data ++ '/' :: r.data)))
          = p.data ++ List.foldl (fun acc seg => acc ++ '/' :: seg) [] tail
        rw [hstack]
        cases h0 : splitSeg rest with
        | nil => exact absurd h0 (splitSeg_ne_nil rest)
        | cons s0 ss =>
          show List.foldl (fun acc seg => acc ++ '/' :: seg) [] ((s0 :: ss) ++ tail)
            = p.data ++ List.foldl (fun acc seg => acc ++ '/' :: seg) [] tail
          rw [List.foldl_append, renderFold_shift tail]
          have hr2 := renderFold_splitSeg rest
          rw [h0] at hr2
          rw [hr2, hd]
      have hguard : strStartsWith (pathJoin p r) p = true := by
        unfold strStartsWith
        rw [hdata]
        exact isPrefixOfB_append_self _ _
      refine ⟨pathJoin p r, ?_, ?_⟩
      · simp [fileManagerResolve, hguard]
      · unfold isInsideB
        cases tail with
        | nil =>
          have heq : pathJoin p r = p := by
            apply str_ext
            rw [hdata]
            simp
          rw [heq]
          simp
        | cons t0 ts =>
          have hsw : strStartsWith (pathJoin p r) (p ++ "/") = true := by
            unfold strStartsWith
            rw [str_data_append, hdata]
            rw [List.foldl_cons, renderFold_shift ts]
            have e1 : (([] : List Char) ++ '/' :: t0) ++
                List.foldl (fun acc seg => acc ++ '/' :: seg) [] ts
                = '/' :: (t0 ++ List.foldl (fun acc seg => acc ++ '/' :: seg) [] ts) := by
              simp
            rw [e1]
            have e2 : ("/" : String).data = ['/'] := rfl
            rw [e2, isPrefixOfB_cancel]
            simp [isPrefixOfB]
          rw [hsw]
          simp
  · intro p r hfail
    simp [fileManagerResolve, hfail]

/-- Witness for C10 at a dot-dot-free relative path. -/
theorem claim_C10_amended_witness :
    (isNormalAbsB "/var/www/shop/sites" = true ∧ noDotDotB "logs/app.txt" = true)
    ∧ (∃ target, fileManagerResolve "/var/www/shop/sites" "logs/app.txt"
        = Except.ok target
      ∧ isInsideB "/var/www/shop/sites" target = true) :=
  ⟨⟨by decide, by decide⟩,
   claim_C10_amended.1 "/var/www/shop/sites" "logs/app.txt" (by decide) (by decide)⟩

end WebSFTP
